import Mathlib

/-!
Verification development for the PSplot spectral-scanner application
(Plastic-Scanner/PSplot).  The numeric helpers are embedded from
`src/helper_functions.py` and `src/psplot.py` (functions `normalize`,
`SNV_transform`), the measurement state machine from `src/psplot.py`
(class `PsPlot`), and the 3-D series plotting and histogram logic from
`src/psplot.py` and `src/visualisation_components.py`.

Machine floating point is idealized by exact real numbers together with
explicit IEEE special values (`NpFloat`): numpy does not raise on
division by zero, it produces `nan` or signed infinities, which is what
the embedding records.
-/

namespace PSplot

/-- Result value of a numpy floating-point computation: a finite real,
a signed infinity, or `nan`.  Used to model the outputs of the numpy
array divisions in `SNV_transform` and `normalize`. -/
inductive NpFloat where
  | fin (x : ℝ)
  | posInf
  | negInf
  | nan

/-- Numpy division of two finite values: division by zero does not
raise, it yields `nan` for `0/0` and a signed infinity otherwise
(this mirrors `numpy` semantics under its default error state, which
only emits a `RuntimeWarning`). -/
noncomputable def npDiv (x y : ℝ) : NpFloat :=
  if y = 0 then
    if x = 0 then NpFloat.nan
    else if 0 < x then NpFloat.posInf else NpFloat.negInf
  else NpFloat.fin (x / y)

/-- Arithmetic mean, as computed by `np.mean`. -/
noncomputable def npMean (l : List ℝ) : ℝ := l.sum / l.length

/-- Population variance, the mean of the squared deviations. -/
noncomputable def npVariance (l : List ℝ) : ℝ :=
  (l.map (fun x => (x - npMean l) ^ 2)).sum / l.length

/-- Population standard deviation, as computed by `np.std`. -/
noncomputable def npStd (l : List ℝ) : ℝ := Real.sqrt (npVariance l)

/-- Embeds `SNV_transform` (`src/psplot.py` line 111, identical to
`snv_transform` in `src/helper_functions.py` line 24):
subtract the arithmetic mean from every element and divide every
element by the population standard deviation.  The function is total:
on a zero-variance input the elementwise division is `0/0`, which numpy
turns into `nan` entries of the returned list, not into an exception. -/
noncomputable def snv_transform (l : List ℝ) : List NpFloat :=
  l.map fun x => npDiv (x - npMean l) (npStd l)

/-- Embeds `normalize` (`src/helper_functions.py` line 8, identical in
`src/psplot.py` line 95): divide the input elementwise by the
calibration data, then apply the SNV transform to the quotient.
The elementwise quotient uses exact real division; a zero calibration
entry does not occur in the properties studied here, and a length
mismatch (numpy would raise a broadcast error) does not occur either
since the two lists always have the device length. -/
noncomputable def normalize (input_data calibration_data : List ℝ) : List NpFloat :=
  snv_transform (List.zipWith (fun a b => a / b) input_data calibration_data)

/-! Basic facts about the mean, variance and standard deviation. -/

theorem npMean_of_const (l : List ℝ) (c : ℝ) (hne : l ≠ [])
    (hc : ∀ x ∈ l, x = c) : npMean l = c := by
  have hsum : l.sum = c * l.length := by
    induction l with
    | nil => simp
    | cons a t ih =>
      rcases t with _ | ⟨b, t2⟩
      · simp [hc a (by simp)]
      · have ha := hc a (by simp)
        have ht : (b :: t2).sum = c * (b :: t2).length := by
          apply ih (by simp)
          intro x hx
          exact hc x (List.mem_cons_of_mem a hx)
        simp only [List.sum_cons, ht, ha, List.length_cons]
        push_cast
        ring
  have hlen : (l.length : ℝ) ≠ 0 := by
    have h1 : 0 < l.length := List.length_pos.mpr hne
    exact_mod_cast Nat.pos_iff_ne_zero.mp h1
  rw [npMean, hsum, mul_div_assoc, div_self hlen, mul_one]

theorem sum_nonneg_eq_zero_iff (l : List ℝ) (h : ∀ x ∈ l, 0 ≤ x) :
    l.sum = 0 ↔ ∀ x ∈ l, x = 0 := by
  induction l with
  | nil => simp
  | cons a t ih =>
    have ha := h a (by simp)
    have ht : ∀ x ∈ t, 0 ≤ x := fun x hx => h x (List.mem_cons_of_mem a hx)
    have hts : 0 ≤ t.sum := List.sum_nonneg ht
    constructor
    · intro hz
      have haz : a = 0 := by
        by_contra hne
        have : 0 < a := lt_of_le_of_ne ha (Ne.symm hne)
        have : 0 < a + t.sum := by linarith
        simp only [List.sum_cons] at hz
        linarith
      have htz : t.sum = 0 := by
        simp only [List.sum_cons, haz, zero_add] at hz
        exact hz
      intro x hx
      rcases List.mem_cons.mp hx with h1 | h2
      · exact h1.trans haz
      · exact ((ih ht).mp htz) x h2
    · intro hall
      simp only [List.sum_cons]
      rw [hall a (by simp), (ih ht).mpr (fun x hx => hall x (List.mem_cons_of_mem a hx))]
      simp

theorem npVariance_nonneg (l : List ℝ) : 0 ≤ npVariance l := by
  apply div_nonneg
  · apply List.sum_nonneg
    intro x hx
    obtain ⟨y, _, rfl⟩ := List.mem_map.mp hx
    positivity
  · positivity

theorem npVariance_eq_zero_iff (l : List ℝ) (hne : l ≠ []) :
    npVariance l = 0 ↔ ∀ x ∈ l, x = npMean l := by
  have hlen : (0 : ℝ) < l.length := by
    have := List.length_pos.mpr hne
    exact_mod_cast this
  constructor
  · intro hz
    have hsum : (l.map (fun x => (x - npMean l) ^ 2)).sum = 0 := by
      have := hz
      rw [npVariance, div_eq_zero_iff] at this
      rcases this with h1 | h2
      · exact h1
      · exact absurd h2 (by positivity)
    have hall := (sum_nonneg_eq_zero_iff _ (by
      intro x hx
      obtain ⟨y, _, rfl⟩ := List.mem_map.mp hx
      positivity)).mp hsum
    intro x hx
    have hx2 : (x - npMean l) ^ 2 = 0 := hall _ (List.mem_map.mpr ⟨x, hx, rfl⟩)
    have := pow_eq_zero_iff (n := 2) (by norm_num) |>.mp hx2
    linarith
  · intro hall
    rw [npVariance]
    have : (l.map (fun x => (x - npMean l) ^ 2)).sum = 0 := by
      apply (sum_nonneg_eq_zero_iff _ (by
        intro x hx
        obtain ⟨y, _, rfl⟩ := List.mem_map.mp hx
        positivity)).mpr
      intro x hx
      obtain ⟨y, hy, rfl⟩ := List.mem_map.mp hx
      rw [hall y hy]
      ring
    rw [this, zero_div]

theorem npStd_eq_zero_iff (l : List ℝ) (hne : l ≠ []) :
    npStd l = 0 ↔ ∀ x ∈ l, x = npMean l := by
  rw [npStd, Real.sqrt_eq_zero (npVariance_nonneg l)]
  exact npVariance_eq_zero_iff l hne

/-- On an all-identical (hence zero-variance) input, `SNV_transform`
silently returns a list with every entry `nan`: each division is `0/0`. -/
theorem snv_transform_const (l : List ℝ) (c : ℝ) (hne : l ≠ [])
    (hc : ∀ x ∈ l, x = c) : snv_transform l = List.replicate l.length NpFloat.nan := by
  have hmean := npMean_of_const l c hne hc
  have hstd : npStd l = 0 := by
    rw [npStd_eq_zero_iff l hne]
    intro x hx
    rw [hc x hx, hmean]
  have hmap : ∀ x ∈ l, npDiv (x - npMean l) (npStd l) = NpFloat.nan := by
    intro x hx
    rw [hstd, hc x hx, hmean, npDiv]
    simp
  calc snv_transform l = l.map fun _ => NpFloat.nan := List.map_congr_left hmap
    _ = List.replicate l.length NpFloat.nan := List.map_const' l NpFloat.nan

/-- On an input with nonzero standard deviation every division in the
SNV transform has a nonzero denominator, so every returned entry is a
finite value. -/
theorem snv_transform_of_std_ne_zero (l : List ℝ) (h : npStd l ≠ 0) :
    snv_transform l = l.map fun x => NpFloat.fin ((x - npMean l) / npStd l) := by
  apply List.map_congr_left
  intro x _
  rw [npDiv, if_neg h]

/-! ## Data model of the measurement pipeline (`src/psplot.py`, class `PsPlot`)

The mutable state of the `PsPlot` window that the measurement, calibration,
storage and import operations touch.  Qt widgets are represented by the data
they hold (table rows and row labels, button enabled flags); the nested
`threeDUniqueSeries` dictionary is represented by its lookup function from a
(material, sample-name) key to the ordered list of stored data rows; the
rendering proxies and axis combo boxes are not part of the state (the axis
selector logic is embedded separately as pure functions below). -/

/-- The hardcoded wavelengths of `PsPlot.__init__` (`self.wavelengths`). -/
def wavelengths : List ℕ := [940, 1050, 1200, 1300, 1450, 1550, 1650, 1720]

/-- Column name of a raw wavelength column, as in the f-string `nm{x}`. -/
def nmName (x : ℕ) : String := "nm" ++ toString x

/-- The dataframe header `self.df_header`: five named columns followed by
the raw, SNV and normalized wavelength columns. -/
def df_header : List String :=
  ["Name", "PlasticType", "Color", "MeasurementType", "DateTime"]
    ++ wavelengths.map nmName
    ++ wavelengths.map (fun x => nmName x ++ "_snv")
    ++ wavelengths.map (fun x => nmName x ++ "_norm")

/-- The 24 axis options of the 3-D plot, `self.threeDAxisOptions`
(identical to `settings.SCATTER3D.AXIS_OPTIONS`). -/
def threeDAxisOptions : List String :=
  wavelengths.map nmName
    ++ wavelengths.map (fun x => nmName x ++ "_snv")
    ++ wavelengths.map (fun x => nmName x ++ "_norm")

/-- The position of an axis name in `threeDAxisOptions`; embeds the
lookup in `self.threeDAxisOptionsIndexMap`. -/
def axisIndex (name : String) : ℕ := threeDAxisOptions.findIdx (fun o => o == name)

/-- The materials that have their own bucket in the 3-D plot,
`self.threeDPlotAllowedMaterials` (identical to
`settings.SCATTER3D.ALLOWED_MATERIALS`). -/
def threeDPlotAllowedMaterials : List String :=
  ["PP", "PET", "PS", "HDPE", "LDPE", "PVC", "other", "unknown"]

/-- The default entries of the sample-material combo box,
`self.default_sample_materials`. -/
def default_sample_materials : List String :=
  ["PP", "PET", "PS", "HDPE", "LDPE", "PVC", "spectralon", "unknown"]

/-- One dataframe record as appended by `PsPlot.addToDataframe`:
the named columns followed by the raw, SNV and normalized vectors.
A normalized entry is `none` exactly where the dataframe holds `None`. -/
structure Row where
  name : String
  material : String
  color : String
  measurementType : String
  dateTime : ℕ
  raw : List ℝ
  snv : List NpFloat
  normalized : List (Option NpFloat)

/-- One table row as appended by `PsPlot.addToTable`: the three editable
text columns and the raw values; `highlighted` records the alternate
background given to calibration rows. -/
structure TableRow where
  name : String
  material : String
  color : String
  values : List ℝ
  highlighted : Bool

/-- One entry of a 3-D series data list: the concatenation
`data + data_snv + data_normalized` appended by `PsPlot.storeMeasurement`,
24 cells for an 8-wavelength device.  A cell is `none` exactly where the
Python list holds `None`. -/
abbrev SeriesRow : Type := List (Option NpFloat)

/-- The mutable state of the `PsPlot` window. -/
structure State where
  baseline : Option (List ℝ)
  df : List Row
  tableRows : List TableRow
  tableRowLabels : List String
  series : String → String → List SeriesRow
  sampleMaterials : List String
  sampleNames : List String
  sampleColors : List String
  overwrite_no_callibration_warning : Bool
  current_calibration_counter : ℕ
  total_calibration_counter : ℕ
  twoDPlotHistory : List (List NpFloat)
  clearCalibrationBtnEnabled : Bool
  regularMeasurementBtnEnabled : Bool
  predictCount : ℕ
  now : ℕ

/-- The state right after `PsPlot.__init__`: no baseline, empty stores,
counters zero; the regular-measurement button starts enabled (the
`setDisabled(True)` line for it is commented out in the source) and the
clear-calibration button starts disabled. -/
def initState : State where
  baseline := none
  df := []
  tableRows := []
  tableRowLabels := []
  series := fun _ _ => []
  sampleMaterials := default_sample_materials
  sampleNames := [""]
  sampleColors := [""]
  overwrite_no_callibration_warning := false
  current_calibration_counter := 0
  total_calibration_counter := 0
  twoDPlotHistory := []
  clearCalibrationBtnEnabled := false
  regularMeasurementBtnEnabled := true
  predictCount := 0
  now := 0

/-- The normalized vector computed at the top of `PsPlot.storeMeasurement`:
all-ones for a calibration measurement (special case, lines 846 to 847),
`normalize(data, baseline)` for a regular measurement with a current
baseline, and all-`None` otherwise. -/
noncomputable def storedNormalized (baseline : Option (List ℝ)) (data : List ℝ)
    (calibrated_measurement : Bool) : List (Option NpFloat) :=
  if calibrated_measurement then
    List.replicate data.length (some (NpFloat.fin 1))
  else
    match baseline with
    | some b => (normalize data b).map some
    | none => List.replicate data.length none

/-- The series data row appended by `PsPlot.storeMeasurement`:
`data + data_snv + data_normalized`. -/
noncomputable def seriesRowOf (baseline : Option (List ℝ)) (data : List ℝ) : SeriesRow :=
  data.map (fun x => some (NpFloat.fin x))
    ++ (snv_transform data).map some
    ++ storedNormalized baseline data false

/-- Embeds `PsPlot.storeMeasurement` (with its helpers `addToDataframe`
and `addToTable`): computes the SNV and normalized vectors, appends one
record to the dataframe, one row and one row label to the table
(calibration rows show material `spectralon`, get the alternate
background and a `c <n>` label), and, for regular measurements only,
appends `data + data_snv + data_normalized` to the
`threeDUniqueSeries[material][name]` data list (creating the entry when
absent; with the lookup-function representation creation is appending to
the empty list). -/
noncomputable def storeMeasurement (s : State) (data : List ℝ)
    (name : String := "") (material : String := "unknown") (color : String := "")
    (calibrated_measurement : Bool := false) : State :=
  let data_snv := snv_transform data
  let data_normalized := storedNormalized s.baseline data calibrated_measurement
  let measurement_type := if calibrated_measurement then "calibration" else "regular"
  let row : Row :=
    ⟨name, material, color, measurement_type, s.now, data, data_snv, data_normalized⟩
  let tableMaterial := if calibrated_measurement then "spectralon" else material
  let label :=
    if calibrated_measurement then "c " ++ toString s.total_calibration_counter
    else toString ((s.tableRows.length : ℤ) + 1 - (s.total_calibration_counter : ℤ))
  let series1 :=
    if calibrated_measurement then s.series
    else fun m n =>
      if m = material ∧ n = name then
        s.series m n ++ [data.map (fun x => some (NpFloat.fin x))
          ++ data_snv.map some ++ data_normalized]
      else s.series m n
  { s with
    df := s.df ++ [row]
    tableRows := s.tableRows ++ [⟨name, tableMaterial, color, data, calibrated_measurement⟩]
    tableRowLabels := s.tableRowLabels ++ [label]
    series := series1 }

/-- Inserts an element into a combo-box backing list when absent
(`if x not in xs: xs.append(x)` or set insertion). -/
def insertIfAbsent (xs : List String) (x : String) : List String :=
  if x ∈ xs then xs else xs ++ [x]

/-- Embeds `PsPlot.addMeasurement`: records previously unseen material,
name and color values, then stores the measurement as a regular one.
The three string arguments stand for the already whitespace-stripped
combo-box texts. -/
noncomputable def addMeasurement (s : State) (data : List ℝ)
    (name material color : String) : State :=
  let s1 := { s with
    sampleMaterials := insertIfAbsent s.sampleMaterials material
    sampleNames := insertIfAbsent s.sampleNames name
    sampleColors := insertIfAbsent s.sampleColors color }
  storeMeasurement s1 data name material color false

/-- Append to the 2-D plot history deque, which has `maxlen=3`. -/
def pushHistory (dq : List (List NpFloat)) (d : List NpFloat) : List (List NpFloat) :=
  if dq.length < 3 then dq ++ [d] else dq.drop 1 ++ [d]

/-- The plotting epilogue of `PsPlot.takeRegularMeasurement`: `plotTwoD`
pushes the SNV-transformed data onto the history deque, and
`plotHistogram` runs the classifier prediction on the newest record
(`predictCount` counts the `clf.predict_proba` invocations). -/
noncomputable def afterRegularPlots (s : State) (data : List ℝ) : State :=
  { s with
    twoDPlotHistory := pushHistory s.twoDPlotHistory (snv_transform data)
    predictCount := s.predictCount + 1 }

/-- Outcome of one regular capture attempt: the post state, whether the
no-calibration warning dialog was shown, and whether a measurement was
stored. -/
structure CaptureResult where
  state : State
  warned : Bool
  stored : Bool

/-- Embeds `PsPlot.takeRegularMeasurement`.  The guard shows the warning
dialog exactly when `current_calibration_counter == 0` and the
per-session override flag is unset; answering No aborts the capture,
answering Yes sets the override flag for the rest of the session.  When
the capture proceeds, the measurement is added and the plots updated.
`answerYes` is the dialog answer (unused when no dialog shows), `data`
the acquired sample, and the remaining strings the combo-box texts. -/
noncomputable def takeRegularMeasurement (s : State) (answerYes : Bool) (data : List ℝ)
    (name material color : String) : CaptureResult :=
  if s.current_calibration_counter = 0 ∧ s.overwrite_no_callibration_warning = false then
    if answerYes then
      let s1 := { s with overwrite_no_callibration_warning := true }
      ⟨afterRegularPlots (addMeasurement s1 data name material color) data, true, true⟩
    else ⟨s, true, false⟩
  else
    ⟨afterRegularPlots (addMeasurement s data name material color) data, false, true⟩

/-- Embeds `PsPlot.calibrate`.  When the confirmation dialog is answered
Yes: on the first calibration of the session the clear-calibration and
regular-measurement buttons are enabled; the baseline is set to the
acquired sample, both calibration counters are incremented, the sample is
stored as a calibration measurement (default name, material and color),
and the 2-D history deque is cleared before replotting.  When answered
No, nothing happens at all. -/
noncomputable def calibrate (s : State) (answerYes : Bool) (measured : List ℝ) : State :=
  if answerYes then
    let s1 :=
      if s.current_calibration_counter = 0 then
        { s with clearCalibrationBtnEnabled := true, regularMeasurementBtnEnabled := true }
      else s
    let s2 := { s1 with
      baseline := some measured
      current_calibration_counter := s1.current_calibration_counter + 1
      total_calibration_counter := s1.total_calibration_counter + 1 }
    let s3 := storeMeasurement s2 measured "" "unknown" "" true
    { s3 with twoDPlotHistory := [] }
  else s

/-- Embeds `PsPlot.clearCalibration`: drops the baseline and clears the
2-D plot history; counters and stores are untouched. -/
def clearCalibration (s : State) : State :=
  { s with baseline := none, twoDPlotHistory := [] }

/-- Embeds `PsPlot.threeDPlotClear`: every series entry is emptied and
the rendering series handles are dropped. -/
def threeDPlotClear (s : State) : State :=
  { s with series := fun _ _ => [] }

/-! ## Dataset import (`PsPlot.loadDataset`) -/

/-- A parsed CSV dataset as handed back by `pd.read_csv`: the column
names after the `Reading` index column, and the data rows (already in
record form). -/
structure CsvFile where
  columns : List String
  rows : List Row

/-- The series data row a dataframe record contributes when the 3-D
datastructure is rebuilt: the record's slice along `threeDAxisOptions`,
which is its raw, SNV and normalized vectors in order. -/
def rowSeriesData (r : Row) : SeriesRow :=
  r.raw.map (fun x => some (NpFloat.fin x)) ++ r.snv.map some ++ r.normalized

/-- The 3-D series index rebuilt from a dataframe by the loop in
`PsPlot.loadDataset`: every record is appended, in dataframe order, to
the entry of its `(PlasticType, Name)` key. -/
def seriesFromDf (rows : List Row) : String → String → List SeriesRow :=
  fun m n => (rows.filter (fun r => r.material = m && r.name = n)).map rowSeriesData

/-- The table-rebuilding loop at the end of `PsPlot.loadDataset`:
returns the table rows, the row labels, and the final value of
`total_calibration_counter` (which the loop increments once per
calibration record, before computing that record's label).  `nRows` is
the number of table rows already emitted. -/
def rebuildTable (rows : List Row) (nRows total : ℕ) :
    List TableRow × List String × ℕ :=
  match rows with
  | [] => ([], [], total)
  | r :: rest =>
    let cal := r.measurementType = "calibration"
    let total1 := if cal then total + 1 else total
    let label :=
      if cal then "c " ++ toString total1
      else toString ((nRows : ℤ) + 1 - (total1 : ℤ))
    let trow : TableRow :=
      ⟨r.name, if cal then "spectralon" else r.material, r.color, r.raw, cal⟩
    let rec1 := rebuildTable rest (nRows + 1) total1
    (trow :: rec1.1, label :: rec1.2.1, rec1.2.2)

/-- Embeds `PsPlot.loadDataset`.  When the in-memory dataframe is
nonempty the user must confirm twice, else nothing happens.  Then the
loaded column list is compared with `df_header`: on any mismatch the
whole load is rejected with an error dialog and no state is changed.
Only when the check passes is the dataframe replaced; the 3-D index is
cleared and rebuilt from the new dataframe, the 2-D plot and histogram
are reset, the sample name, color and material lists are refilled from
the new data, the calibration counters are reset and the baseline
cleared, and the table is rebuilt (recounting calibration rows). -/
noncomputable def loadDataset (s : State) (confirmOverwrite confirmReally : Bool)
    (file : CsvFile) : State :=
  if 0 < s.df.length ∧ ¬(confirmOverwrite = true ∧ confirmReally = true) then s
  else if file.columns ≠ df_header then s
  else
    let rebuilt := rebuildTable file.rows 0 0
    { s with
      df := file.rows
      series := seriesFromDf file.rows
      twoDPlotHistory := []
      sampleNames := (file.rows.map Row.name).eraseDups
      sampleColors := (file.rows.map Row.color).eraseDups
      sampleMaterials := default_sample_materials
        ++ ((file.rows.map Row.material).eraseDups.filter
              (fun m => m ∉ default_sample_materials))
      baseline := none
      current_calibration_counter := 0
      tableRows := rebuilt.1
      tableRowLabels := rebuilt.2.1
      total_calibration_counter := rebuilt.2.2 }

/-! ## 3-D coordinate extraction and the normalized-axis fallback

`PsPlot.plotThreeD` and `ScatterPlot3D.plot` extract, for every data row
of a series entry, the three cells selected by the current axis names.
If any cell is `None` the extraction is abandoned and every axis selector
is rewritten towards the SNV columns before a single retry.  The
extraction and the two historical selector rewrites are embedded as pure
functions. -/

/-- Cell of a series data row at an axis index (`data[index_x]`). -/
def cellAt (r : SeriesRow) (i : ℕ) : Option NpFloat := r.getD i none

/-- The `any(data[index_x] is None or ...)` test guarding the coordinate
extraction. -/
def hasNullAt (rows : List SeriesRow) (ix iy iz : ℕ) : Bool :=
  rows.any fun r => (cellAt r ix).isNone || (cellAt r iy).isNone || (cellAt r iz).isNone

/-- Result of requesting an entry's coordinates along three axes. -/
inductive CoordResult where
  | ok (points : List (NpFloat × NpFloat × NpFloat))
  | fallbackRequired

/-- Coordinate extraction for one series entry: if any row has a `None`
cell on a requested axis the store signals that the fallback is required
(nothing is dropped or zero-filled); otherwise every row yields its
coordinate triple, in stored order.  The `getD nan` defaults are never
reached in the `ok` branch because the null test has excluded them. -/
def coordinates (rows : List SeriesRow) (ix iy iz : ℕ) : CoordResult :=
  if hasNullAt rows ix iy iz then CoordResult.fallbackRequired
  else CoordResult.ok (rows.map fun r =>
    ((cellAt r ix).getD NpFloat.nan, (cellAt r iy).getD NpFloat.nan,
      (cellAt r iz).getD NpFloat.nan))

/-- Python `str.replace(pat, rep)` on character lists, replacing every
non-overlapping occurrence from the left.  The fuel argument makes the
recursion structural; with `fuel = length of the list` and a nonempty
pattern (the only way it is used here) the fuel never runs out. -/
def replaceFuel (pat rep : List Char) : ℕ → List Char → List Char
  | 0, l => l
  | _ + 1, [] => []
  | fuel + 1, c :: rest =>
    if !pat.isEmpty && pat.isPrefixOf (c :: rest) then
      rep ++ replaceFuel pat rep fuel ((c :: rest).drop pat.length)
    else c :: replaceFuel pat rep fuel rest

/-- Python `s.replace(pat, rep)` for strings. -/
def pyReplace (s pat rep : String) : String :=
  ⟨replaceFuel pat.data rep.data s.data.length s.data⟩

/-- Python `s.rstrip(chars)`: removes the longest trailing run of
characters drawn from the set `chars` (not the trailing string `chars`). -/
def pyRstrip (s chars : String) : String :=
  ⟨(s.data.reverse.dropWhile (fun c => chars.data.contains c)).reverse⟩

/-- The per-axis selector rewrite of
`ScatterPlot3D._switch_axes_to_snv` (`src/visualisation_components.py`
line 418): `axis_var.replace("_norm", "_snv")`. -/
def switchAxisToSnv (name : String) : String := pyReplace name "_norm" "_snv"

/-- The per-axis selector rewrite of the fallback inside
`PsPlot.plotThreeD` (`src/psplot.py` line 1351):
`axis_var.rstrip("_norm") + "_snv"`. -/
def psplotSwitchAxisToSnv (name : String) : String :=
  pyRstrip name "_norm" ++ "_snv"

/-! ## Material bucket resolution

`PsPlot.plotThreeD` (`src/psplot.py` line 1277) and `ScatterPlot3D.plot`
(`src/visualisation_components.py` line 442) resolve a record's material
string to the bucket that chooses its color and legend entry. -/

/-- Bucket resolution: a material in the allowed list is its own bucket;
otherwise the empty string resolves to `unknown` and anything else to
`other`. -/
def resolveBucket (material : String) : String :=
  if material ∈ threeDPlotAllowedMaterials then material
  else if material = "" then "unknown" else "other"

/-! ## Histogram ordering (`Histogram.plot`, `src/visualisation_components.py`)

The histogram shows one bar per class, bottom-to-top; the class labels
are reversed so that the display reads top-to-bottom in native order.
`classes` is the classifier's native class order and `probs` the rounded
percentage for each class, aligned with `classes`. -/

/-- The display pairs in `default` sort mode, read bottom-to-top:
the reversed class list zipped with the reversed percentage list. -/
def histogramDefaultPairs (classes : List String) (probs : List ℤ) :
    List (String × ℤ) :=
  classes.reverse.zip probs.reverse

/-- Lexicographic comparison of character lists by code point, the
order Python uses on strings. -/
def charListLe : List Char → List Char → Bool
  | [], _ => true
  | _ :: _, [] => false
  | a :: as, b :: bs => if a < b then true else if b < a then false else charListLe as bs

/-- Python string comparison `a <= b` (code-point lexicographic). -/
def pyStringLe (a b : String) : Prop := charListLe a.data b.data = true

instance : DecidableRel pyStringLe := fun a b => by
  unfold pyStringLe
  infer_instance

/-- The comparison Python applies to the `(width, name)` tuples in
`sorted(zip(widths, names))`: lexicographic on value, then label. -/
def pyPairLe (a b : ℤ × String) : Prop :=
  a.1 < b.1 ∨ (a.1 = b.1 ∧ pyStringLe a.2 b.2)

instance : DecidableRel pyPairLe := fun a b => by
  unfold pyPairLe
  infer_instance

/-- The display pairs in `by_score` sort mode, read bottom-to-top:
the `(width, name)` tuples sorted by Python's tuple order (value first,
then label), embedded with a stable insertion sort. -/
def histogramByScorePairs (classes : List String) (probs : List ℤ) :
    List (String × ℤ) :=
  (List.insertionSort pyPairLe (probs.reverse.zip classes.reverse)).map
    fun p => (p.2, p.1)

/-! ## Helper lemmas -/

theorem zipWith_div_self (data : List ℝ) (h0 : ∀ x ∈ data, x ≠ 0) :
    List.zipWith (fun a b => a / b) data data = List.replicate data.length 1 := by
  induction data with
  | nil => rfl
  | cons a t ih =>
    have ht := ih (fun x hx => h0 x (List.mem_cons_of_mem a hx))
    simp only [List.zipWith_cons_cons, List.length_cons, List.replicate_succ]
    rw [div_self (h0 a (List.mem_cons_self a t)), ht]

/-- Feeding a baseline through the general `normalize` path against
itself produces the all-`nan` vector (the quotient is constant, so the
SNV divisions are all `0/0`), not the all-ones vector; this is why
`storeMeasurement` special-cases calibration measurements. -/
theorem normalize_self (data : List ℝ) (hne : data ≠ []) (h0 : ∀ x ∈ data, x ≠ 0) :
    normalize data data = List.replicate data.length NpFloat.nan := by
  rw [normalize, zipWith_div_self data h0]
  have hlen : data.length ≠ 0 := by simpa [List.length_eq_zero] using hne
  have h1 : (List.replicate data.length (1 : ℝ)) ≠ [] := by
    intro hc
    apply hlen
    simpa using congrArg List.length hc
  have h2 : ∀ x ∈ List.replicate data.length (1 : ℝ), x = 1 :=
    fun x hx => List.eq_of_mem_replicate hx
  have h3 := snv_transform_const _ 1 h1 h2
  simpa using h3

/-! ## Claim theorems -/

/-- C2 counterexample: on the all-identical input `[1, 1, 1]` (standard
deviation zero) `SNV_transform` does not fail with any error: it returns
normally, and the returned vector consists of `nan` entries.  This
refutes the claim that the degenerate case surfaces a `DivideByZeroKind`
error rather than silently returning a vector containing NaN. -/
theorem C2_counterexample :
    snv_transform [1, 1, 1] = [NpFloat.nan, NpFloat.nan, NpFloat.nan] := by
  have h := snv_transform_const [1, 1, 1] 1 (by simp)
    (by intro x hx; fin_cases hx <;> rfl)
  simpa using h

/-- C2 (amended): `snv_transform` subtracts the arithmetic mean and
divides by the population standard deviation; the divisor is zero
exactly when all input values are identical, and in that degenerate case
the function silently returns the all-NaN vector of the input length
(numpy division-by-zero semantics) instead of raising an error, while on
non-degenerate input every returned entry is the finite value
`(x - mean) / std`. -/
theorem C2_snv_zero_variance_behavior (l : List ℝ) (hne : l ≠ []) :
    (npStd l = 0 ↔ ∀ x ∈ l, ∀ y ∈ l, x = y)
    ∧ ((∀ x ∈ l, ∀ y ∈ l, x = y) → snv_transform l = List.replicate l.length NpFloat.nan)
    ∧ (npStd l ≠ 0 →
        snv_transform l = l.map fun x => NpFloat.fin ((x - npMean l) / npStd l)) := by
  obtain ⟨a, t, rfl⟩ : ∃ a t, l = a :: t := by
    cases l with
    | nil => exact absurd rfl hne
    | cons a t => exact ⟨a, t, rfl⟩
  have key : (∀ x ∈ a :: t, ∀ y ∈ a :: t, x = y) ↔ ∀ x ∈ a :: t, x = npMean (a :: t) := by
    constructor
    · intro h x hx
      have hall : ∀ y ∈ a :: t, y = a := fun y hy => h y hy a (List.mem_cons_self a t)
      have hmean := npMean_of_const (a :: t) a hne hall
      rw [hall x hx, hmean]
    · intro h x hx y hy
      rw [h x hx, h y hy]
  refine ⟨?_, ?_, snv_transform_of_std_ne_zero _⟩
  · rw [npStd_eq_zero_iff _ hne, key]
  · intro h
    exact snv_transform_const _ a hne
      (fun x hx => h x hx a (List.mem_cons_self a t))

/-- C2 witness: the amended theorem applied to the concrete input `[1, 2]`. -/
theorem C2_witness :
    ((1 : ℝ) :: [2] ≠ [])
    ∧ ((npStd [(1 : ℝ), 2] = 0 ↔ ∀ x ∈ [(1 : ℝ), 2], ∀ y ∈ [(1 : ℝ), 2], x = y)
      ∧ ((∀ x ∈ [(1 : ℝ), 2], ∀ y ∈ [(1 : ℝ), 2], x = y) →
          snv_transform [1, 2] = List.replicate ([(1 : ℝ), 2]).length NpFloat.nan)
      ∧ (npStd [(1 : ℝ), 2] ≠ 0 →
          snv_transform [1, 2] =
            [(1 : ℝ), 2].map fun x => NpFloat.fin ((x - npMean [1, 2]) / npStd [1, 2]))) :=
  ⟨by simp, C2_snv_zero_variance_behavior [1, 2] (by simp)⟩

/-- C1: every record appended by `storeMeasurement` satisfies the
normalized-field policy: a calibration record gets exactly the all-ones
vector of the raw length (special-cased in the code, lines 846 to 847 of
`src/psplot.py`); a regular record gets `normalize(raw, baseline)` when
a baseline is current and the all-`None` vector otherwise.  The final
conjunct documents that the special case is not equivalent to running
the baseline through the general path, which would produce `nan`. -/
theorem C1_stored_record_normalized (s : State) (data : List ℝ)
    (name material color : String) (cal : Bool) :
    ∃ row : Row,
      (storeMeasurement s data name material color cal).df = s.df ++ [row]
      ∧ row.raw = data
      ∧ row.measurementType = (if cal then "calibration" else "regular")
      ∧ (cal = true → row.normalized = List.replicate data.length (some (NpFloat.fin 1)))
      ∧ (cal = false → s.baseline = none → row.normalized = List.replicate data.length none)
      ∧ (cal = false → ∀ b, s.baseline = some b → row.normalized = (normalize data b).map some)
      ∧ (data ≠ [] → (∀ x ∈ data, x ≠ 0) →
          normalize data data = List.replicate data.length NpFloat.nan) := by
  refine ⟨_, rfl, rfl, rfl, ?_, ?_, ?_, normalize_self data⟩
  · intro hc
    simp [storedNormalized, hc]
  · intro hc hb
    simp [storedNormalized, hc, hb]
  · intro hc b hb
    simp [storedNormalized, hc, hb]

/-- C1 witness: the scenario from the specification, a calibration
capture with raw `[10, 20, 30]`: the stored record's normalized field is
exactly `[1, 1, 1]`. -/
theorem C1_witness :
    ∃ row : Row,
      (storeMeasurement initState [10, 20, 30] "" "unknown" "" true).df
        = initState.df ++ [row]
      ∧ row.normalized = [some (NpFloat.fin 1), some (NpFloat.fin 1), some (NpFloat.fin 1)] := by
  obtain ⟨row, hdf, _, _, hcal, _⟩ :=
    C1_stored_record_normalized initState [10, 20, 30] "" "unknown" "" true
  exact ⟨row, hdf, by simpa [List.replicate_succ] using hcal rfl⟩

/-- C10: when the calibration confirmation dialog is answered No,
`PsPlot.calibrate` performs no state change whatsoever: the baseline,
both calibration counters, the dataframe, the table, the series index,
the button-enabled flags (and every other state component) are exactly
as before the call. -/
theorem C10_calibrate_declined_no_change (s : State) (measured : List ℝ) :
    calibrate s false measured = s := rfl

/-- C5 counterexample: a confirmed calibration on the initial state
stores one (calibration) record in the dataframe, yet the series entry
for the stored record's key (material `unknown`, empty name) stays
empty: calibration records are not handed to the series index, refuting
the claim that the record is handed to `SeriesStore.add`. -/
theorem C5_counterexample :
    (calibrate initState true [10, 20, 30]).df.length = 1
    ∧ (calibrate initState true [10, 20, 30]).series "unknown" "" = [] :=
  ⟨rfl, rfl⟩

/-- C5 (amended): a confirmed calibration capture sets the baseline to
the acquired sample, increments both the session and lifetime
calibration counters, builds a calibration-typed record (all-ones
normalized field) and appends it to the dataframe and to the table (with
material shown as `spectralon` and the calibration highlight) — but it
does not add the record to the series index, and it does not invoke the
classifier prediction. -/
theorem C5_calibrate_confirmed_effects (s : State) (measured : List ℝ) :
    (calibrate s true measured).baseline = some measured
    ∧ (calibrate s true measured).current_calibration_counter
        = s.current_calibration_counter + 1
    ∧ (calibrate s true measured).total_calibration_counter
        = s.total_calibration_counter + 1
    ∧ (∃ row : Row, (calibrate s true measured).df = s.df ++ [row]
        ∧ row.measurementType = "calibration"
        ∧ row.raw = measured
        ∧ row.normalized = List.replicate measured.length (some (NpFloat.fin 1)))
    ∧ (∃ trow : TableRow, (calibrate s true measured).tableRows = s.tableRows ++ [trow]
        ∧ trow.material = "spectralon" ∧ trow.highlighted = true)
    ∧ (calibrate s true measured).series = s.series
    ∧ (calibrate s true measured).predictCount = s.predictCount := by
  by_cases h : s.current_calibration_counter = 0 <;>
  exact ⟨by simp [calibrate, h, storeMeasurement],
    by simp [calibrate, h, storeMeasurement],
    by simp [calibrate, h, storeMeasurement],
    ⟨⟨"", "unknown", "", "calibration", s.now, measured, snv_transform measured,
        List.replicate measured.length (some (NpFloat.fin 1))⟩,
      by simp [calibrate, h, storeMeasurement, storedNormalized], rfl, rfl, rfl⟩,
    ⟨⟨"", "spectralon", "", measured, true⟩,
      by simp [calibrate, h, storeMeasurement], rfl, rfl⟩,
    by simp [calibrate, h, storeMeasurement],
    by simp [calibrate, h, storeMeasurement]⟩

/-- C4 counterexample: after a calibration followed by an explicit
calibration clear, the baseline is absent and the override flag unset,
yet a regular capture proceeds without any warning — the guard in
`takeRegularMeasurement` tests the session calibration counter, not
baseline absence.  This refutes the claimed "halts iff the current
baseline is absent and the override flag is not set". -/
theorem C4_counterexample :
    (clearCalibration (calibrate initState true [1, 2, 3])).baseline = none
    ∧ (clearCalibration (calibrate initState true [1, 2, 3])).overwrite_no_callibration_warning
        = false
    ∧ (takeRegularMeasurement (clearCalibration (calibrate initState true [1, 2, 3]))
        true [1, 2, 3] "" "unknown" "").warned = false :=
  ⟨rfl, rfl, rfl⟩

/-- C4 (amended): the warning dialog of a regular capture appears if and
only if the session calibration counter is zero and the per-session
override flag is unset (the guard tests the counter, not baseline
absence).  Answering No aborts the capture leaving the state untouched;
answering Yes sets the override flag for the rest of the session, so
every subsequent regular capture proceeds without the dialog; a stored
capture taken with no baseline produces an all-null normalized field. -/
theorem C4_regular_capture_guard (s : State) (answerYes : Bool) (data : List ℝ)
    (name material color : String) :
    ((takeRegularMeasurement s answerYes data name material color).warned = true
        ↔ (s.current_calibration_counter = 0
            ∧ s.overwrite_no_callibration_warning = false))
    ∧ ((takeRegularMeasurement s answerYes data name material color).warned = true →
        answerYes = false →
        (takeRegularMeasurement s answerYes data name material color).state = s
        ∧ (takeRegularMeasurement s answerYes data name material color).stored = false)
    ∧ ((takeRegularMeasurement s answerYes data name material color).warned = true →
        answerYes = true →
        (takeRegularMeasurement s answerYes data name material
          color).state.overwrite_no_callibration_warning = true
        ∧ (takeRegularMeasurement s answerYes data name material color).stored = true)
    ∧ (s.overwrite_no_callibration_warning = true →
        (takeRegularMeasurement s answerYes data name material color).warned = false
        ∧ (takeRegularMeasurement s answerYes data name material color).stored = true)
    ∧ ((takeRegularMeasurement s answerYes data name material color).stored = true →
        s.baseline = none →
        ∃ row : Row,
          (takeRegularMeasurement s answerYes data name material color).state.df
            = s.df ++ [row]
          ∧ row.normalized = List.replicate data.length none)
    ∧ (s.overwrite_no_callibration_warning = true →
        (takeRegularMeasurement s answerYes data name material
          color).state.overwrite_no_callibration_warning = true) := by
  by_cases hg : s.current_calibration_counter = 0
      ∧ s.overwrite_no_callibration_warning = false
  · obtain ⟨h1, h2⟩ := hg
    cases answerYes
    · refine ⟨by simp [takeRegularMeasurement, h1, h2], ?_, ?_, ?_, ?_, ?_⟩
      · intro _ _
        constructor <;> simp [takeRegularMeasurement, h1, h2]
      · intro _ hc
        exact absurd hc (by simp)
      · intro hc
        simp [h2] at hc
      · intro hst
        simp [takeRegularMeasurement, h1, h2] at hst
      · intro hc
        simp [h2] at hc
    · refine ⟨by simp [takeRegularMeasurement, h1, h2], ?_, ?_, ?_, ?_, ?_⟩
      · intro _ hc
        exact absurd hc (by simp)
      · intro _ _
        constructor <;> simp [takeRegularMeasurement, h1, h2, afterRegularPlots,
          addMeasurement, storeMeasurement]
      · intro hc
        simp [h2] at hc
      · intro _ hb
        refine ⟨⟨name, material, color, "regular", s.now, data, snv_transform data,
          List.replicate data.length none⟩, ?_, rfl⟩
        simp [takeRegularMeasurement, h1, h2, afterRegularPlots, addMeasurement,
          storeMeasurement, storedNormalized, hb]
      · intro hc
        simp [h2] at hc
  · refine ⟨?_, ?_, ?_, ?_, ?_, ?_⟩
    · simp only [takeRegularMeasurement, if_neg hg]
      simp [hg]
    · intro hc
      simp [takeRegularMeasurement, hg] at hc
    · intro hc
      simp [takeRegularMeasurement, hg] at hc
    · intro _
      constructor <;> simp [takeRegularMeasurement, hg]
    · intro _ hb
      refine ⟨⟨name, material, color, "regular", s.now, data, snv_transform data,
        List.replicate data.length none⟩, ?_, rfl⟩
      simp [takeRegularMeasurement, hg, afterRegularPlots, addMeasurement,
        storeMeasurement, storedNormalized, hb]
    · intro hflag
      simp [takeRegularMeasurement, hg, afterRegularPlots, addMeasurement,
        storeMeasurement, hflag]

/-- C4 witness: the amended theorem applied to the initial state with a
declined dialog: the warning shows and the state is unchanged. -/
theorem C4_witness :
    (takeRegularMeasurement initState false [1] "" "unknown" "").warned = true
    ∧ (takeRegularMeasurement initState false [1] "" "unknown" "").state = initState := by
  have h := C4_regular_capture_guard initState false [1] "" "unknown" ""
  exact ⟨h.1.mpr ⟨rfl, rfl⟩, (h.2.1 (h.1.mpr ⟨rfl, rfl⟩) rfl).1⟩

/-! ## Series index lemmas -/

theorem storeMeasurement_series_append (s : State) (data : List ℝ)
    (name material color : String) :
    (storeMeasurement s data name material color false).series material name
      = s.series material name ++ [seriesRowOf s.baseline data] := by
  simp [storeMeasurement, seriesRowOf]

theorem storeMeasurement_series_other (s : State) (data : List ℝ)
    (name material color : String) (m n : String) (h : ¬(m = material ∧ n = name)) :
    (storeMeasurement s data name material color false).series m n = s.series m n := by
  simp [storeMeasurement, h]

/-- C7: series entries grow by appending and are only emptied by the
explicit clear.  In order: a regular `storeMeasurement` appends exactly
one data row to the entry of its `(material, name)` key and leaves every
other entry untouched; storing k records with the same key appends
exactly those k rows in insertion order; every `storeMeasurement`
(calibration ones included) leaves every entry's length non-decreasing;
`clearCalibration` does not touch the series index; `threeDPlotClear`
(the explicit clear-all) empties every entry; and a coordinates query
whose axes hit no nulls returns one tuple per stored row, in stored
order. -/
theorem C7_series_entry_growth :
    (∀ (s : State) (data : List ℝ) (name material color : String),
      (storeMeasurement s data name material color false).series material name
          = s.series material name ++ [seriesRowOf s.baseline data]
        ∧ ∀ m n : String, ¬(m = material ∧ n = name) →
            (storeMeasurement s data name material color false).series m n
              = s.series m n)
    ∧ (∀ (s : State) (batch : List (List ℝ)) (name material color : String),
        (batch.foldl (fun t d => storeMeasurement t d name material color false)
            s).series material name
          = s.series material name ++ batch.map (seriesRowOf s.baseline))
    ∧ (∀ (s : State) (data : List ℝ) (name material color : String) (cal : Bool)
        (m n : String),
        (s.series m n).length
          ≤ ((storeMeasurement s data name material color cal).series m n).length)
    ∧ (∀ (s : State) (m n : String), (clearCalibration s).series m n = s.series m n)
    ∧ (∀ (s : State) (m n : String), (threeDPlotClear s).series m n = [])
    ∧ (∀ (rows : List SeriesRow) (ix iy iz : ℕ),
        hasNullAt rows ix iy iz = false →
        coordinates rows ix iy iz
          = CoordResult.ok (rows.map fun r =>
              ((cellAt r ix).getD NpFloat.nan, (cellAt r iy).getD NpFloat.nan,
                (cellAt r iz).getD NpFloat.nan))) := by
  refine ⟨fun s data name material color =>
      ⟨storeMeasurement_series_append s data name material color,
        storeMeasurement_series_other s data name material color⟩,
    ?_, ?_, fun s m n => rfl, fun s m n => rfl, ?_⟩
  · intro s batch
    induction batch generalizing s with
    | nil => intro name material color; simp
    | cons d rest ih =>
      intro name material color
      simp only [List.foldl_cons, List.map_cons]
      rw [ih (storeMeasurement s d name material color false) name material color]
      have hb : (storeMeasurement s d name material color false).baseline
          = s.baseline := rfl
      rw [hb, storeMeasurement_series_append s d name material color]
      simp
  · intro s data name material color cal m n
    cases cal
    · by_cases hk : m = material ∧ n = name
      · obtain ⟨rfl, rfl⟩ := hk
        rw [storeMeasurement_series_append s data n m color]
        simp
      · rw [storeMeasurement_series_other s data name material color m n hk]
    · exact Nat.le_refl _
  · intro rows ix iy iz h
    simp [coordinates, h]

/-- C7 witness: one stored row and axes hitting no nulls yield exactly
one coordinate tuple. -/
theorem C7_witness :
    hasNullAt [[some (NpFloat.fin 1)]] 0 0 0 = false
    ∧ coordinates [[some (NpFloat.fin 1)]] 0 0 0
        = CoordResult.ok [(NpFloat.fin 1, NpFloat.fin 1, NpFloat.fin 1)] := by
  refine ⟨rfl, ?_⟩
  have h := C7_series_entry_growth.2.2.2.2.2 [[some (NpFloat.fin 1)]] 0 0 0 rfl
  simpa [cellAt] using h

/-! ## Fallback lemmas for the 3-D plot -/

theorem coordinates_eq_fallback_iff (rows : List SeriesRow) (ix iy iz : ℕ) :
    coordinates rows ix iy iz = CoordResult.fallbackRequired
      ↔ hasNullAt rows ix iy iz = true := by
  by_cases h : hasNullAt rows ix iy iz <;> simp [coordinates, h]

theorem axisIndex_switch_lt :
    ∀ name ∈ threeDAxisOptions, axisIndex (switchAxisToSnv name) < 16 := by decide

theorem isSome_ne_isNone {o : Option NpFloat} (h : o.isSome = true) :
    o.isNone = false := by
  cases o with
  | none => simp at h
  | some v => rfl

theorem cellAt_append_left (r1 r2 : SeriesRow) (i : ℕ) (h : i < r1.length) :
    cellAt (r1 ++ r2) i = cellAt r1 i :=
  List.getD_append r1 r2 none i h

theorem cellAt_append_right (r1 r2 : SeriesRow) (i : ℕ) (h : r1.length ≤ i) :
    cellAt (r1 ++ r2) i = cellAt r2 (i - r1.length) :=
  List.getD_append_right r1 r2 none i h

theorem cellAt_map_fin_isSome (xs : List ℝ) (i : ℕ) (h : i < xs.length) :
    (cellAt (xs.map fun x => some (NpFloat.fin x)) i).isSome = true := by
  unfold cellAt
  rw [List.getD_eq_getElem _ _ (by simpa using h)]
  simp

theorem cellAt_map_some_isSome (xs : List NpFloat) (i : ℕ) (h : i < xs.length) :
    (cellAt (xs.map some) i).isSome = true := by
  unfold cellAt
  rw [List.getD_eq_getElem _ _ (by simpa using h)]
  simp

/-- The first 16 cells of a freshly stored series data row (the raw and
SNV sections) are always present, whatever the baseline was. -/
theorem seriesRowOf_cells_isSome (baseline : Option (List ℝ)) (data : List ℝ)
    (hlen : data.length = 8) :
    ∀ i < 16, (cellAt (seriesRowOf baseline data) i).isSome = true := by
  intro i hi
  unfold seriesRowOf
  have hA : (data.map fun x => some (NpFloat.fin x)).length = 8 := by simp [hlen]
  have hB : ((snv_transform data).map some).length = 8 := by
    simp [snv_transform, hlen]
  by_cases h8 : i < 8
  · rw [List.append_assoc, cellAt_append_left _ _ i (by rw [hA]; exact h8)]
    exact cellAt_map_fin_isSome data i (by rw [hlen]; exact h8)
  · rw [List.append_assoc, cellAt_append_right _ _ i (by rw [hA]; omega),
      cellAt_append_left _ _ _ (by rw [hA, hB]; omega)]
    exact cellAt_map_some_isSome (snv_transform data) _
      (by simp [snv_transform, hlen]; omega)

/-- C3 (amended): the fallback behaviour of the two implementations.
In order: (1) if any stored row of an entry has a null cell on any of
the three requested axes the coordinate request signals
`FallbackRequired` (no silent drop or zero substitution); (2) the retry
rewrite of `ScatterPlot3D._switch_axes_to_snv` maps every `*_norm`
selector to the corresponding `*_snv` selector and leaves raw and
`*_snv` selectors unchanged, uniformly applied to the axes; (3) every
rewritten selector lands in the raw or SNV section (index below 16);
(4) on well-formed entries (raw and SNV cells present) the rewritten
request never signals `FallbackRequired`; and (5) regular stores of
device-length data preserve that well-formedness.  The `psplot.py`
variant of the rewrite does not satisfy (2); see the counterexample. -/
theorem C3_normalized_axis_fallback :
    (∀ (rows : List SeriesRow) (ix iy iz : ℕ),
        (∃ r ∈ rows, (cellAt r ix).isNone = true ∨ (cellAt r iy).isNone = true
            ∨ (cellAt r iz).isNone = true) →
        coordinates rows ix iy iz = CoordResult.fallbackRequired)
    ∧ (∀ x ∈ wavelengths,
        switchAxisToSnv (nmName x ++ "_norm") = nmName x ++ "_snv"
          ∧ switchAxisToSnv (nmName x) = nmName x
          ∧ switchAxisToSnv (nmName x ++ "_snv") = nmName x ++ "_snv")
    ∧ (∀ name ∈ threeDAxisOptions, axisIndex (switchAxisToSnv name) < 16)
    ∧ (∀ rows : List SeriesRow,
        (∀ r ∈ rows, ∀ i < 16, (cellAt r i).isSome = true) →
        ∀ ax ∈ threeDAxisOptions, ∀ ay ∈ threeDAxisOptions, ∀ az ∈ threeDAxisOptions,
          coordinates rows (axisIndex (switchAxisToSnv ax))
            (axisIndex (switchAxisToSnv ay)) (axisIndex (switchAxisToSnv az))
            ≠ CoordResult.fallbackRequired)
    ∧ (∀ (s : State) (data : List ℝ) (name material color m n : String),
        data.length = 8 →
        (∀ r ∈ s.series m n, ∀ i < 16, (cellAt r i).isSome = true) →
        ∀ r ∈ (storeMeasurement s data name material color false).series m n,
          ∀ i < 16, (cellAt r i).isSome = true) := by
  refine ⟨?_, by decide, axisIndex_switch_lt, ?_, ?_⟩
  · intro rows ix iy iz hex
    obtain ⟨r, hr, hor⟩ := hex
    rw [coordinates_eq_fallback_iff]
    unfold hasNullAt
    rw [List.any_eq_true]
    refine ⟨r, hr, ?_⟩
    rcases hor with h | h | h <;> simp [h]
  · intro rows hwf ax hax ay hay az haz heq
    rw [coordinates_eq_fallback_iff] at heq
    unfold hasNullAt at heq
    rw [List.any_eq_true] at heq
    obtain ⟨r, hr, hb⟩ := heq
    have h1 := hwf r hr _ (axisIndex_switch_lt ax hax)
    have h2 := hwf r hr _ (axisIndex_switch_lt ay hay)
    have h3 := hwf r hr _ (axisIndex_switch_lt az haz)
    simp [isSome_ne_isNone h1, isSome_ne_isNone h2, isSome_ne_isNone h3] at hb
  · intro s data name material color m n hlen hwf r hrmem i hi
    by_cases hk : m = material ∧ n = name
    · obtain ⟨rfl, rfl⟩ := hk
      rw [storeMeasurement_series_append s data n m color] at hrmem
      rcases List.mem_append.mp hrmem with hold | hnew
      · exact hwf r hold i hi
      · have : r = seriesRowOf s.baseline data := by simpa using hnew
        rw [this]
        exact seriesRowOf_cells_isSome s.baseline data hlen i hi
    · rw [storeMeasurement_series_other s data name material color m n hk] at hrmem
      exact hwf r hrmem i hi

/-- C3 counterexample: the retry rewrite inside `PsPlot.plotThreeD`
(`rstrip("_norm") + "_snv"`) rewrites the raw selector `nm940` to
`nm940_snv` — a raw selector does not stay raw — and mangles the SNV
selector `nm940_snv` into `nm940_snv_snv`, which is not an axis option
at all.  This refutes the claim that only `*_normalized` selectors are
substituted. -/
theorem C3_counterexample :
    psplotSwitchAxisToSnv "nm940" = "nm940_snv"
    ∧ psplotSwitchAxisToSnv "nm940_snv" = "nm940_snv_snv"
    ∧ "nm940_snv_snv" ∉ threeDAxisOptions := by decide

/-- C3 witness: the amended theorem applied to a one-row entry with all
raw and SNV cells present, on the three default normalized axes. -/
theorem C3_witness :
    (∀ r ∈ [List.replicate 16 (some (NpFloat.fin 1))], ∀ i < 16,
        (cellAt r i).isSome = true)
    ∧ "nm1050_norm" ∈ threeDAxisOptions
    ∧ coordinates [List.replicate 16 (some (NpFloat.fin 1))]
        (axisIndex (switchAxisToSnv "nm1050_norm"))
        (axisIndex (switchAxisToSnv "nm1450_norm"))
        (axisIndex (switchAxisToSnv "nm1650_norm"))
        ≠ CoordResult.fallbackRequired := by
  refine ⟨by decide, by decide, ?_⟩
  exact C3_normalized_axis_fallback.2.2.2.1 _ (by decide)
    "nm1050_norm" (by decide) "nm1450_norm" (by decide) "nm1650_norm" (by decide)

/-! ## Ordering lemmas for the histogram -/

theorem charListLe_total : ∀ a b : List Char,
    charListLe a b = true ∨ charListLe b a = true := by
  intro a
  induction a with
  | nil => intro b; left; rfl
  | cons x xs ih =>
    intro b
    cases b with
    | nil => right; rfl
    | cons y ys =>
      rcases lt_trichotomy x y with h | h | h
      · left; simp [charListLe, h]
      · subst h
        rcases ih ys with h2 | h2
        · left; simp [charListLe, lt_irrefl, h2]
        · right; simp [charListLe, lt_irrefl, h2]
      · right; simp [charListLe, h]

theorem charListLe_trans : ∀ {a b c : List Char},
    charListLe a b = true → charListLe b c = true → charListLe a c = true := by
  intro a
  induction a with
  | nil => intro b c _ _; rfl
  | cons x xs ih =>
    intro b c hab hbc
    cases b with
    | nil => simp [charListLe] at hab
    | cons y ys =>
      cases c with
      | nil => simp [charListLe] at hbc
      | cons z zs =>
        rcases lt_trichotomy x y with hxy | hxy | hxy
        · rcases lt_trichotomy y z with hyz | hyz | hyz
          · simp [charListLe, lt_trans hxy hyz]
          · subst hyz; simp [charListLe, hxy]
          · simp [charListLe, hyz, asymm hyz] at hbc
        · subst hxy
          rcases lt_trichotomy x z with hxz | hxz | hxz
          · simp [charListLe, hxz]
          · subst hxz
            have he : ∀ p q : List Char, charListLe (x :: p) (x :: q) = charListLe p q := by
              intro p q
              simp [charListLe, lt_irrefl]
            rw [he] at hab hbc ⊢
            exact ih hab hbc
          · simp [charListLe, hxz, asymm hxz] at hbc
        · simp [charListLe, hxy, asymm hxy] at hab

theorem pyPairLe_total : ∀ a b : ℤ × String, pyPairLe a b ∨ pyPairLe b a := by
  intro a b
  rcases lt_trichotomy a.1 b.1 with h | h | h
  · exact Or.inl (Or.inl h)
  · rcases charListLe_total a.2.data b.2.data with h2 | h2
    · exact Or.inl (Or.inr ⟨h, h2⟩)
    · exact Or.inr (Or.inr ⟨h.symm, h2⟩)
  · exact Or.inr (Or.inl h)

theorem pyPairLe_trans : ∀ a b c : ℤ × String,
    pyPairLe a b → pyPairLe b c → pyPairLe a c := by
  intro a b c hab hbc
  rcases hab with h1 | ⟨h1, h1s⟩
  · rcases hbc with h2 | ⟨h2, _⟩
    · exact Or.inl (lt_trans h1 h2)
    · exact Or.inl (h2 ▸ h1)
  · rcases hbc with h2 | ⟨h2, h2s⟩
    · exact Or.inl (h1 ▸ h2)
    · exact Or.inr ⟨h1.trans h2, charListLe_trans h1s h2s⟩

instance : IsTotal (ℤ × String) pyPairLe := ⟨pyPairLe_total⟩

instance : IsTrans (ℤ × String) pyPairLe := ⟨pyPairLe_trans⟩

theorem zip_map_swap (a : List ℤ) (b : List String) :
    (a.zip b).map (fun p => (p.2, p.1)) = b.zip a := by
  induction a generalizing b with
  | nil => cases b <;> rfl
  | cons x xs ih =>
    cases b with
    | nil => rfl
    | cons y ys => simp [ih]

/-- C6 (amended): `by_score` mode sorts the display pairs ascending by
probability value, breaking ties by ascending lexicographic label order
(Python compares the `(width, label)` tuples, so a tie falls through to
the string comparison — not to the `default`-mode relative order of the
tied labels); the output is a permutation of the `default`-mode pairs,
and the specification's scenario `{A:10, B:90, C:50}` yields
`[(A,10), (C,50), (B,90)]`. -/
theorem C6_by_score_ordering (classes : List String) (probs : List ℤ) :
    List.Sorted (fun p q : String × ℤ => p.2 < q.2 ∨ (p.2 = q.2 ∧ pyStringLe p.1 q.1))
        (histogramByScorePairs classes probs)
    ∧ (histogramByScorePairs classes probs).Perm (histogramDefaultPairs classes probs)
    ∧ histogramByScorePairs ["A", "B", "C"] [10, 90, 50]
        = [("A", 10), ("C", 50), ("B", 90)] := by
  refine ⟨?_, ?_, by decide⟩
  · have hs := List.sorted_insertionSort pyPairLe (probs.reverse.zip classes.reverse)
    exact List.Pairwise.map _ (fun a b hab => hab) hs
  · have hp := List.perm_insertionSort pyPairLe (probs.reverse.zip classes.reverse)
    have hm := hp.map (fun p : ℤ × String => (p.2, p.1))
    rw [zip_map_swap] at hm
    exact hm

/-- C6 counterexample: on the tied probabilities `{A:50, B:50}` the
`default` ordering lists `B` before `A` (native order reversed), but
`by_score` returns `A` before `B`: the tie is broken by ascending label
order, not by the `default`-mode relative order of the tied labels, so
the claimed stability fails. -/
theorem C6_counterexample :
    histogramDefaultPairs ["A", "B"] [50, 50] = [("B", 50), ("A", 50)]
    ∧ histogramByScorePairs ["A", "B"] [50, 50] = [("A", 50), ("B", 50)] := by
  decide

/-- C8: importing a dataset whose column list differs from the expected
schema changes nothing: the whole state (dataframe, table, series index,
calibration state) is returned untouched, and the dataframe is replaced
only when the column check passes. -/
theorem C8_import_schema_guard (s : State) (c1 c2 : Bool) (file : CsvFile) :
    (file.columns ≠ df_header → loadDataset s c1 c2 file = s)
    ∧ ((loadDataset s c1 c2 file).df ≠ s.df → file.columns = df_header) := by
  have h1 : file.columns ≠ df_header → loadDataset s c1 c2 file = s := by
    intro h
    unfold loadDataset
    by_cases hok : 0 < s.df.length ∧ ¬(c1 = true ∧ c2 = true)
    · rw [if_pos hok]
    · rw [if_neg hok, if_pos h]
  refine ⟨h1, ?_⟩
  intro hdf
  by_contra hne
  rw [h1 hne] at hdf
  exact hdf rfl

/-- C8 witness: a file with a bogus column list is rejected and the
initial state is unchanged. -/
theorem C8_witness :
    (CsvFile.mk ["bogus"] []).columns ≠ df_header
    ∧ loadDataset initState true true (CsvFile.mk ["bogus"] []) = initState :=
  ⟨by decide,
    (C8_import_schema_guard initState true true (CsvFile.mk ["bogus"] [])).1 (by decide)⟩

/-- C9: bucket resolution is total into the allowed-bucket list and
idempotent; the empty string resolves to `unknown`, a nonempty string
outside the bucket list resolves to `other`, and a string already naming
a bucket resolves to itself. -/
theorem C9_bucket_resolution (m : String) :
    resolveBucket m ∈ threeDPlotAllowedMaterials
    ∧ resolveBucket (resolveBucket m) = resolveBucket m
    ∧ (m = "" → resolveBucket m = "unknown")
    ∧ (m ∉ threeDPlotAllowedMaterials → m ≠ "" → resolveBucket m = "other")
    ∧ (m ∈ threeDPlotAllowedMaterials → resolveBucket m = m) := by
  by_cases h : m ∈ threeDPlotAllowedMaterials
  · refine ⟨by simp [resolveBucket, h], by simp [resolveBucket, h], ?_,
      fun hc => absurd h hc, fun _ => by simp [resolveBucket, h]⟩
    intro he
    subst he
    exact absurd h (by decide)
  · by_cases he : m = ""
    · subst he
      exact ⟨by decide, by decide, fun _ => by decide,
        fun _ hc => absurd rfl hc, fun hc => absurd hc (by decide)⟩
    · have hm : resolveBucket m = "other" := by simp [resolveBucket, h, he]
      refine ⟨by simp [hm]; decide, ?_, fun hc => absurd hc he,
        fun _ _ => hm, fun hc => absurd hc h⟩
      rw [hm]
      decide

/-- C9 witness: the theorem applied to the unlisted material `PETG`
(resolving to `other`) and to the empty string (resolving to `unknown`). -/
theorem C9_witness :
    resolveBucket "PETG" = "other" ∧ resolveBucket "" = "unknown" :=
  ⟨(C9_bucket_resolution "PETG").2.2.2.1 (by decide) (by decide),
    (C9_bucket_resolution "").2.2.1 rfl⟩

end PSplot
